import Mathlib

/-!
# sdfx: triangles and edges (`sdf/triangle.go`)

A shallow embedding of `sdf/triangle.go` over exact arithmetic.  The Go code
computes in `float64`; the embedding computes in an arbitrary linearly ordered
field `K` (the rationals for evaluation, the reals for the geometric reading),
so rounding is left out.  A division whose divisor is zero has no value in a
field (IEEE arithmetic answers with an infinity or a NaN), so every function
that divides returns an `Option`, with `none` for "left the field".

The vector helpers (`V2.Sub`, `V2.MaxComponent`, `V2Set.Min`, ...) and the
constant `EPSILON` are declared in files of the package other than
`triangle.go`; the helpers are modelled below and `EPSILON` is a parameter.
-/

namespace Sdfx

variable {K : Type} [LinearOrderedField K]

/-! ## Data model -/

/-- 2d vector: `type V2 struct { X, Y float64 }`. -/
structure V2 (K : Type) where
  X : K
  Y : K
deriving DecidableEq

/-- 3d vector: `type V3 struct { X, Y, Z float64 }`. -/
structure V3 (K : Type) where
  X : K
  Y : K
  Z : K

/-- 3d triangle: `type Triangle3 struct { V [3]V3 }`. -/
structure Triangle3 (K : Type) where
  V : Fin 3 → V3 K

/-- 2d triangle: `type Triangle2 struct { V [3]V2 }`. -/
structure Triangle2 (K : Type) where
  V : Fin 3 → V2 K

/-- 3d edge: `type Edge3 struct { V [2]V3 }`. -/
structure Edge3 (K : Type) where
  V : Fin 2 → V3 K

/-- 2d edge: `type Edge2 struct { V [2]V2 }`. -/
structure Edge2 (K : Type) where
  V : Fin 2 → V2 K

/-- 2d box: `type Box2 struct { Min, Max V2 }`. -/
structure Box2 (K : Type) where
  Min : V2 K
  Max : V2 K

/-- Set of 2d points: `type V2Set []V2`. -/
abbrev V2Set (K : Type) := List (V2 K)

/-- Constructor `NewTriangle3(a, b, c)`. -/
def NewTriangle3 (a b c : V3 K) : Triangle3 K := ⟨![a, b, c]⟩

/-- Constructor `NewTriangle2(a, b, c)`. -/
def NewTriangle2 (a b c : V2 K) : Triangle2 K := ⟨![a, b, c]⟩

/-! ## Helpers declared outside `triangle.go` -/

/-- Modelled from the spec: `Abs` is declared outside src/; the absolute
value of a number. -/
def Abs (x : K) : K := |x|

/-- Quotient `a / b` of the exact model; a zero divisor has no quotient. -/
def quot (a b : K) : Option K := if b = 0 then none else some (a / b)

/-- Modelled from the spec: `V2.Sub` is declared outside src/; componentwise
difference of two points. -/
def V2.Sub (a b : V2 K) : V2 K := ⟨a.X - b.X, a.Y - b.Y⟩

/-- Modelled from the spec: `V2.Add` is declared outside src/; componentwise
sum of two points. -/
def V2.Add (a b : V2 K) : V2 K := ⟨a.X + b.X, a.Y + b.Y⟩

/-- Modelled from the spec: `V2.MaxComponent` is declared outside src/; the
larger of the two coordinates (the point's coordinate magnitude). -/
def V2.MaxComponent (a : V2 K) : K := max a.X a.Y

/-- Modelled from the spec: `V2.MinComponent` is declared outside src/; the
smaller of the two coordinates (the box's smaller dimension). -/
def V2.MinComponent (a : V2 K) : K := min a.X a.Y

/-- Modelled from the spec: `V2.Equals` is declared outside src/; equality
within tolerance, `|Δx| ≤ ε ∧ |Δy| ≤ ε`. -/
def V2.Equals (a b : V2 K) (tolerance : K) : Bool :=
  decide (Abs (a.X - b.X) ≤ tolerance ∧ Abs (a.Y - b.Y) ≤ tolerance)

/-- Modelled from the spec: `V2Set.Min` is declared outside src/; the minimum
corner of the axis-aligned bounding box of the points (`SuperTriangle` calls
it on sets of two or more points only). -/
def V2Set.Min (s : V2Set K) : V2 K :=
  match s with
  | [] => ⟨0, 0⟩
  | p :: ps => ps.foldl (fun m v => ⟨min m.X v.X, min m.Y v.Y⟩) p

/-- Modelled from the spec: `V2Set.Max` is declared outside src/; the maximum
corner of the axis-aligned bounding box of the points. -/
def V2Set.Max (s : V2Set K) : V2 K :=
  match s with
  | [] => ⟨0, 0⟩
  | p :: ps => ps.foldl (fun m v => ⟨max m.X v.X, max m.Y v.Y⟩) p

/-- Modelled from the spec: `Box2.Size` is declared outside src/; the width
and height of the box, `Max - Min`. -/
def Box2.Size (b : Box2 K) : V2 K := b.Max.Sub b.Min

/-! ## `SuperTriangle` -/

/-- The method `func (s V2Set) SuperTriangle() *Triangle2`; `none` is the nil
pointer. -/
def SuperTriangle (s : V2Set K) : Option (Triangle2 K) :=
  match s with
  | [] =>
    -- no points
    none
  | [p] =>
    -- a single point
    let k := p.MaxComponent * 0.125
    let k := if k = 0 then 1 else k
    let p0 : V2 K := ⟨p.X - k, p.Y - k⟩
    let p1 : V2 K := ⟨p.X + k, p.Y - k⟩
    let p2 : V2 K := ⟨p.X, p.Y + k⟩
    some (NewTriangle2 p0 p1 p2)
  | _ =>
    let b : Box2 K := ⟨V2Set.Min s, V2Set.Max s⟩
    let k := b.Size.MinComponent * 0.125
    let b : Box2 K := ⟨b.Min.Sub ⟨k, k⟩, b.Max.Add ⟨k, k⟩⟩
    let sz := b.Size
    let p0 := b.Min
    let p1 : V2 K := ⟨p0.X + sz.X + sz.Y, p0.Y⟩
    let p2 : V2 K := ⟨p0.X, p0.Y + sz.X + sz.Y⟩
    some (NewTriangle2 p0 p1 p2)

/-- Lines 85-87 of `SuperTriangle`: the bounding box of the points, grown on
every side by the margin `k`, one eighth of its smaller dimension. -/
def SuperTriangle.box (s : V2Set K) : Box2 K :=
  let b : Box2 K := ⟨V2Set.Min s, V2Set.Max s⟩
  let k := b.Size.MinComponent * 0.125
  ⟨b.Min.Sub ⟨k, k⟩, b.Max.Add ⟨k, k⟩⟩

/-! ## `InCircumcircle` -/

/-- Lines 127-152 of `InCircumcircle`: the centre `(xc, yc)` computed by the
three-way branch on the two y-differences. -/
def InCircumcircle.centre (EPSILON : K) (t : Triangle2 K) : Option (K × K) :=
  let x1 := (t.V 0).X
  let x2 := (t.V 1).X
  let x3 := (t.V 2).X
  let y1 := (t.V 0).Y
  let y2 := (t.V 1).Y
  let y3 := (t.V 2).Y
  let fabsy1y2 := Abs (y1 - y2)
  let fabsy2y3 := Abs (y2 - y3)
  if fabsy1y2 < EPSILON then do
    let m2 ← quot (-(x3 - x2)) (y3 - y2)
    let mx2 := (x2 + x3) / 2
    let my2 := (y2 + y3) / 2
    let xc := (x2 + x1) / 2
    let yc := m2 * (xc - mx2) + my2
    pure (xc, yc)
  else if fabsy2y3 < EPSILON then do
    let m1 ← quot (-(x2 - x1)) (y2 - y1)
    let mx1 := (x1 + x2) / 2
    let my1 := (y1 + y2) / 2
    let xc := (x3 + x2) / 2
    let yc := m1 * (xc - mx1) + my1
    pure (xc, yc)
  else do
    let m1 ← quot (-(x2 - x1)) (y2 - y1)
    let m2 ← quot (-(x3 - x2)) (y3 - y2)
    let mx1 := (x1 + x2) / 2
    let mx2 := (x2 + x3) / 2
    let my1 := (y1 + y2) / 2
    let my2 := (y2 + y3) / 2
    let xc ← quot (m1 * mx1 - m2 * mx2 + my2 - my1) (m1 - m2)
    let yc := if fabsy1y2 > fabsy2y3 then m1 * (xc - mx1) + my1 else m2 * (xc - mx2) + my2
    pure (xc, yc)

/-- The method `func (t Triangle2) InCircumcircle(p V2) bool`: the early return
of lines 119-125, the centre of lines 127-152 and the comparison of lines
154-162. -/
def InCircumcircle (EPSILON : K) (t : Triangle2 K) (p : V2 K) : Option Bool :=
  let x2 := (t.V 1).X
  let y1 := (t.V 0).Y
  let y2 := (t.V 1).Y
  let y3 := (t.V 2).Y
  let xp := p.X
  let yp := p.Y
  let fabsy1y2 := Abs (y1 - y2)
  let fabsy2y3 := Abs (y2 - y3)
  -- Check for coincident points
  if fabsy1y2 < EPSILON ∧ fabsy2y3 < EPSILON then some false
  else do
    let (xc, yc) ← InCircumcircle.centre EPSILON t
    let dx := x2 - xc
    let dy := y2 - yc
    let rsqr := dx * dx + dy * dy
    let dx := xp - xc
    let dy := yp - yc
    let drsqr := dx * dx + dy * dy
    pure (decide (drsqr - rsqr ≤ EPSILON))

/-! ## `Edge2.Equals` -/

/-- The method `func (a Edge2) Equals(b Edge2, tolerance float64) bool`. -/
def Edge2.Equals (a b : Edge2 K) (tolerance : K) : Bool :=
  (a.V 0).Equals (b.V 0) tolerance && (a.V 1).Equals (b.V 1) tolerance

/-! ## `Triangle3.Normal` -/

/-- Modelled from the spec: `V3.Sub` is declared outside src/; componentwise
difference of two vectors. -/
def V3.Sub (a b : V3 K) : V3 K := ⟨a.X - b.X, a.Y - b.Y, a.Z - b.Z⟩

/-- Modelled from the spec: `V3.Cross` is declared outside src/; the cross
product of two vectors. -/
def V3.Cross (a b : V3 K) : V3 K :=
  ⟨a.Y * b.Z - a.Z * b.Y, a.Z * b.X - a.X * b.Z, a.X * b.Y - a.Y * b.X⟩

/-- Modelled from the spec: `V3.Length` is declared outside src/; the
Euclidean length, with the square root function `sqrt` of the arithmetic as a
parameter. -/
def V3.Length (sqrt : K → K) (a : V3 K) : K := sqrt (a.X * a.X + a.Y * a.Y + a.Z * a.Z)

/-- Modelled from the spec: `V3.Normalize` is declared outside src/; the
vector scaled by the inverse of its length. -/
def V3.Normalize (sqrt : K → K) (a : V3 K) : Option (V3 K) := do
  let l ← quot 1 (a.Length sqrt)
  pure ⟨a.X * l, a.Y * l, a.Z * l⟩

/-- The method `func (t *Triangle3) Normal() V3`. -/
def Triangle3.Normal (sqrt : K → K) (t : Triangle3 K) : Option (V3 K) :=
  let e1 := (t.V 1).Sub (t.V 0)
  let e2 := (t.V 2).Sub (t.V 0)
  (e1.Cross e2).Normalize sqrt

/-- Dot product of two vectors. -/
def V3.Dot (a b : V3 K) : K := a.X * b.X + a.Y * b.Y + a.Z * b.Z

/-- The three vertices of the 3d triangle lie on one line: the cross product
of its two edge vectors is the zero vector. -/
def Triangle3.Collinear (t : Triangle3 K) : Prop :=
  ((t.V 1).Sub (t.V 0)).Cross ((t.V 2).Sub (t.V 0)) = ⟨0, 0, 0⟩

/-! ## Geometric vocabulary of the claims -/

/-- Squared distance between two points. -/
def distSq (a b : V2 K) : K := (a.X - b.X) * (a.X - b.X) + (a.Y - b.Y) * (a.Y - b.Y)

/-- Orientation of three points: the cross product of `b - a` and `c - a`. -/
def orient (a b c : V2 K) : K := (b.X - a.X) * (c.Y - a.Y) - (b.Y - a.Y) * (c.X - a.X)

/-- The three vertices of the triangle lie on one line (coincident vertices
included). -/
def Collinear (t : Triangle2 K) : Prop := orient (t.V 0) (t.V 1) (t.V 2) = 0

/-- The point `c` is equidistant from the three vertices of `t`. -/
def IsCircumcentre (t : Triangle2 K) (c : V2 K) : Prop :=
  distSq (t.V 0) c = distSq (t.V 1) c ∧ distSq (t.V 1) c = distSq (t.V 2) c

/-- The point `p` is strictly inside `t`: strictly on the same side of the
three edges, whatever the orientation of the triangle. -/
def StrictlyInside (t : Triangle2 K) (p : V2 K) : Prop :=
  (0 < orient (t.V 0) (t.V 1) p ∧ 0 < orient (t.V 1) (t.V 2) p ∧ 0 < orient (t.V 2) (t.V 0) p) ∨
  (orient (t.V 0) (t.V 1) p < 0 ∧ orient (t.V 1) (t.V 2) p < 0 ∧ orient (t.V 2) (t.V 0) p < 0)

/-- The point `p` is inside `t` or on its boundary. -/
def InsideOrOn (t : Triangle2 K) (p : V2 K) : Prop :=
  (0 ≤ orient (t.V 0) (t.V 1) p ∧ 0 ≤ orient (t.V 1) (t.V 2) p ∧ 0 ≤ orient (t.V 2) (t.V 0) p) ∨
  (orient (t.V 0) (t.V 1) p ≤ 0 ∧ orient (t.V 1) (t.V 2) p ≤ 0 ∧ orient (t.V 2) (t.V 0) p ≤ 0)

/-! ## Concrete inputs -/

/-- A positive tolerance for the evaluations: `1e-12`. -/
def sampleEps : ℚ := 1 / 1000000000000

/-- The triangle `(0,0), (1,0), (0,1)`: its first edge is horizontal. -/
def rightTriangle : Triangle2 ℚ := NewTriangle2 ⟨0, 0⟩ ⟨1, 0⟩ ⟨0, 1⟩

/-- The triangle `(0,0), (1,1), (0,2)`: none of its edges is horizontal. -/
def slantTriangle : Triangle2 ℚ := NewTriangle2 ⟨0, 0⟩ ⟨1, 1⟩ ⟨0, 2⟩

/-- The triangle `(0,0), (0,0), (1,1)`: its first two vertices coincide. -/
def pinchedTriangle : Triangle2 ℚ := NewTriangle2 ⟨0, 0⟩ ⟨0, 0⟩ ⟨1, 1⟩

/-- The triangle `(0,0), (2e12, 5e-13), (4e12, 0)`: of area 1, with
y-differences below `1e-12`. -/
def flatTriangle : Triangle2 ℚ :=
  NewTriangle2 ⟨0, 0⟩ ⟨2000000000000, 1 / 2000000000000⟩ ⟨4000000000000, 0⟩

/-- The two points `(0,0), (1,1)`, opposite corners of the unit square. -/
def diagonalPair : V2Set ℚ := [⟨0, 0⟩, ⟨1, 1⟩]

/-- The single point `(-8,-16)`: its maximum component is negative. -/
def lowPoint : V2Set ℚ := [⟨-8, -16⟩]

/-! ## Lemmas on `InCircumcircle` -/

theorem quot_of_ne (a : K) {b : K} (h : b ≠ 0) : quot a b = some (a / b) := by
  simp [quot, h]

/-- Two points equidistant from the vertices of a non-collinear triangle
coincide. -/
theorem circumcentre_unique (t : Triangle2 K) (hnc : ¬ Collinear t) (c d : V2 K)
    (hc : IsCircumcentre t c) (hd : IsCircumcentre t d) : c = d := by
  obtain ⟨c1, c2⟩ := hc
  obtain ⟨d1, d2⟩ := hd
  simp only [distSq] at c1 c2 d1 d2
  simp only [Collinear, orient] at hnc
  have e1 : (c.X - d.X) * ((t.V 1).X - (t.V 0).X) + (c.Y - d.Y) * ((t.V 1).Y - (t.V 0).Y) = 0 := by
    linear_combination (1 / 2 : K) * c1 - (1 / 2 : K) * d1
  have e2 : (c.X - d.X) * ((t.V 2).X - (t.V 1).X) + (c.Y - d.Y) * ((t.V 2).Y - (t.V 1).Y) = 0 := by
    linear_combination (1 / 2 : K) * c2 - (1 / 2 : K) * d2
  have hx : (c.X - d.X) * (((t.V 1).X - (t.V 0).X) * ((t.V 2).Y - (t.V 0).Y) -
      ((t.V 1).Y - (t.V 0).Y) * ((t.V 2).X - (t.V 0).X)) = 0 := by
    linear_combination ((t.V 2).Y - (t.V 0).Y) * e1 - ((t.V 1).Y - (t.V 0).Y) * (e1 + e2)
  have hy : (c.Y - d.Y) * (((t.V 1).X - (t.V 0).X) * ((t.V 2).Y - (t.V 0).Y) -
      ((t.V 1).Y - (t.V 0).Y) * ((t.V 2).X - (t.V 0).X)) = 0 := by
    linear_combination ((t.V 1).X - (t.V 0).X) * (e1 + e2) - ((t.V 2).X - (t.V 0).X) * e1
  have hx0 : c.X - d.X = 0 := (mul_eq_zero.mp hx).resolve_right hnc
  have hy0 : c.Y - d.Y = 0 := (mul_eq_zero.mp hy).resolve_right hnc
  cases c
  cases d
  simp only [V2.mk.injEq]
  exact ⟨sub_eq_zero.mp hx0, sub_eq_zero.mp hy0⟩

/-- Past the early return, the answer of `InCircumcircle` is the comparison of
lines 154-162 at the centre that lines 127-152 computed. -/
theorem inCircumcircle_of_centre (ε : K) (t : Triangle2 K) (c : K × K)
    (hret : ¬ (Abs ((t.V 0).Y - (t.V 1).Y) < ε ∧ Abs ((t.V 1).Y - (t.V 2).Y) < ε))
    (hc : InCircumcircle.centre ε t = some c) (p : V2 K) :
    InCircumcircle ε t p
      = some (decide (distSq p ⟨c.1, c.2⟩ - distSq (t.V 1) ⟨c.1, c.2⟩ ≤ ε)) := by
  obtain ⟨xc, yc⟩ := c
  simp only [InCircumcircle, hc, if_neg hret, distSq]
  rfl

/-- The centre of the general branch (lines 139-152) of a non-collinear
triangle is equidistant from the three vertices. -/
theorem centre_general (ε : K) (t : Triangle2 K) (hnc : ¬ Collinear t)
    (h12 : ε ≤ Abs ((t.V 0).Y - (t.V 1).Y)) (h23 : ε ≤ Abs ((t.V 1).Y - (t.V 2).Y))
    (hε : 0 < ε) :
    ∃ c : K × K, InCircumcircle.centre ε t = some c ∧ IsCircumcentre t ⟨c.1, c.2⟩ := by
  have hy12 : (t.V 1).Y - (t.V 0).Y ≠ 0 := by
    intro h
    have : (t.V 0).Y - (t.V 1).Y = 0 := by linear_combination -h
    rw [this] at h12
    simp [Abs] at h12
    exact absurd hε (not_lt.mpr h12)
  have hy23 : (t.V 2).Y - (t.V 1).Y ≠ 0 := by
    intro h
    have : (t.V 1).Y - (t.V 2).Y = 0 := by linear_combination -h
    rw [this] at h23
    simp [Abs] at h23
    exact absurd hε (not_lt.mpr h23)
  have hm : -((t.V 1).X - (t.V 0).X) / ((t.V 1).Y - (t.V 0).Y)
      - -((t.V 2).X - (t.V 1).X) / ((t.V 2).Y - (t.V 1).Y) ≠ 0 := by
    intro h
    apply hnc
    simp only [Collinear, orient]
    field_simp at h
    linear_combination -h
  simp only [InCircumcircle.centre, if_neg (not_lt.mpr h12), if_neg (not_lt.mpr h23),
    quot_of_ne _ hy12, quot_of_ne _ hy23, quot_of_ne _ hm, Option.bind_eq_bind, Option.some_bind,
    Option.pure_def]
  refine ⟨_, rfl, ?_⟩
  have e1 := div_mul_cancel₀ (-((t.V 1).X - (t.V 0).X)) hy12
  have e2 := div_mul_cancel₀ (-((t.V 2).X - (t.V 1).X)) hy23
  have e3 := div_mul_cancel₀ (-((t.V 1).X - (t.V 0).X) / ((t.V 1).Y - (t.V 0).Y)
      * (((t.V 0).X + (t.V 1).X) / 2)
      - -((t.V 2).X - (t.V 1).X) / ((t.V 2).Y - (t.V 1).Y) * (((t.V 1).X + (t.V 2).X) / 2)
      + ((t.V 1).Y + (t.V 2).Y) / 2 - ((t.V 0).Y + (t.V 1).Y) / 2) hm
  generalize -((t.V 1).X - (t.V 0).X) / ((t.V 1).Y - (t.V 0).Y) = m1 at e1 e3 ⊢
  generalize -((t.V 2).X - (t.V 1).X) / ((t.V 2).Y - (t.V 1).Y) = m2 at e2 e3 ⊢
  generalize (m1 * (((t.V 0).X + (t.V 1).X) / 2) - m2 * (((t.V 1).X + (t.V 2).X) / 2)
      + ((t.V 1).Y + (t.V 2).Y) / 2 - ((t.V 0).Y + (t.V 1).Y) / 2) / (m1 - m2) = xc at e3 ⊢
  have hyc : m1 * (xc - ((t.V 0).X + (t.V 1).X) / 2) + ((t.V 0).Y + (t.V 1).Y) / 2
      = m2 * (xc - ((t.V 1).X + (t.V 2).X) / 2) + ((t.V 1).Y + (t.V 2).Y) / 2 := by
    linear_combination e3
  simp only [IsCircumcentre, distSq]
  split_ifs
  · constructor
    · linear_combination (2 * (xc - ((t.V 0).X + (t.V 1).X) / 2)) * e1
    · rw [hyc]
      linear_combination (2 * (xc - ((t.V 1).X + (t.V 2).X) / 2)) * e2
  · constructor
    · rw [← hyc]
      linear_combination (2 * (xc - ((t.V 0).X + (t.V 1).X) / 2)) * e1
    · linear_combination (2 * (xc - ((t.V 1).X + (t.V 2).X) / 2)) * e2

theorem abs_pos_of_eps_le {ε a b : K} (hε : 0 < ε) (h : ε ≤ Abs (a - b)) : b - a ≠ 0 := by
  intro h0
  have : a - b = 0 := by linear_combination -h0
  rw [this] at h
  simp [Abs] at h
  exact absurd hε (not_lt.mpr h)

/-- The centre of the first fallback branch (lines 127-132), taken when the
edge from vertex 0 to vertex 1 is horizontal, is equidistant from the three
vertices. -/
theorem centre_fallback_first (ε : K) (t : Triangle2 K) (hε : 0 < ε)
    (h12 : (t.V 0).Y = (t.V 1).Y) (h23 : ε ≤ Abs ((t.V 1).Y - (t.V 2).Y)) :
    ∃ c : K × K, InCircumcircle.centre ε t = some c ∧ IsCircumcentre t ⟨c.1, c.2⟩ := by
  have hy23 : (t.V 2).Y - (t.V 1).Y ≠ 0 := abs_pos_of_eps_le hε h23
  have hlt : Abs ((t.V 0).Y - (t.V 1).Y) < ε := by simpa [Abs, h12] using hε
  simp only [InCircumcircle.centre, if_pos hlt, quot_of_ne _ hy23, Option.bind_eq_bind,
    Option.some_bind, Option.pure_def]
  refine ⟨_, rfl, ?_⟩
  have e2 := div_mul_cancel₀ (-((t.V 2).X - (t.V 1).X)) hy23
  generalize -((t.V 2).X - (t.V 1).X) / ((t.V 2).Y - (t.V 1).Y) = m2 at e2 ⊢
  simp only [IsCircumcentre, distSq]
  constructor
  · rw [h12]
    ring
  · linear_combination (2 * (((t.V 1).X + (t.V 0).X) / 2 - ((t.V 1).X + (t.V 2).X) / 2)) * e2

/-- The centre of the second fallback branch (lines 133-138), taken when the
edge from vertex 1 to vertex 2 is horizontal and the other is not, is
equidistant from the three vertices. -/
theorem centre_fallback_second (ε : K) (t : Triangle2 K) (hε : 0 < ε)
    (h12 : ε ≤ Abs ((t.V 0).Y - (t.V 1).Y)) (h23 : (t.V 1).Y = (t.V 2).Y) :
    ∃ c : K × K, InCircumcircle.centre ε t = some c ∧ IsCircumcentre t ⟨c.1, c.2⟩ := by
  have hy12 : (t.V 1).Y - (t.V 0).Y ≠ 0 := abs_pos_of_eps_le hε h12
  have hlt : Abs ((t.V 1).Y - (t.V 2).Y) < ε := by simpa [Abs, h23] using hε
  simp only [InCircumcircle.centre, if_neg (not_lt.mpr h12), if_pos hlt, quot_of_ne _ hy12,
    Option.bind_eq_bind, Option.some_bind, Option.pure_def]
  refine ⟨_, rfl, ?_⟩
  have e1 := div_mul_cancel₀ (-((t.V 1).X - (t.V 0).X)) hy12
  generalize -((t.V 1).X - (t.V 0).X) / ((t.V 1).Y - (t.V 0).Y) = m1 at e1 ⊢
  simp only [IsCircumcentre, distSq]
  constructor
  · linear_combination (2 * (((t.V 2).X + (t.V 1).X) / 2 - ((t.V 0).X + (t.V 1).X) / 2)) * e1
  · rw [h23]
    ring

/-- A non-collinear triangle has no two horizontal consecutive edges. -/
theorem not_both_level (t : Triangle2 K) (hnc : ¬ Collinear t)
    (h12 : (t.V 0).Y = (t.V 1).Y) (h23 : (t.V 1).Y = (t.V 2).Y) : False := by
  apply hnc
  simp only [Collinear, orient, h12, h23]
  ring

/-- For a non-collinear triangle whose consecutive y-differences are each zero
or at least `ε`, the early return is not taken and lines 127-152 compute a
point equidistant from the three vertices. -/
theorem centre_exact (ε : K) (t : Triangle2 K) (hε : 0 < ε) (hnc : ¬ Collinear t)
    (h12 : (t.V 0).Y = (t.V 1).Y ∨ ε ≤ Abs ((t.V 0).Y - (t.V 1).Y))
    (h23 : (t.V 1).Y = (t.V 2).Y ∨ ε ≤ Abs ((t.V 1).Y - (t.V 2).Y)) :
    ¬ (Abs ((t.V 0).Y - (t.V 1).Y) < ε ∧ Abs ((t.V 1).Y - (t.V 2).Y) < ε) ∧
    ∃ c : K × K, InCircumcircle.centre ε t = some c ∧ IsCircumcentre t ⟨c.1, c.2⟩ := by
  rcases h12 with h12 | h12
  · rcases h23 with h23 | h23
    · exact (not_both_level t hnc h12 h23).elim
    · exact ⟨fun h => absurd h.2 (not_lt.mpr h23), centre_fallback_first ε t hε h12 h23⟩
  · refine ⟨fun h => absurd h.1 (not_lt.mpr h12), ?_⟩
    rcases h23 with h23 | h23
    · exact centre_fallback_second ε t hε h12 h23
    · exact centre_general ε t hnc h12 h23 hε

/-- The characterisation behind C2, C3 and C10: the predicate compares the
squared distance to the circumcentre with the squared circumradius, within
`ε`. -/
theorem inCircumcircle_exact (ε : K) (t : Triangle2 K) (hε : 0 < ε) (hnc : ¬ Collinear t)
    (h12 : (t.V 0).Y = (t.V 1).Y ∨ ε ≤ Abs ((t.V 0).Y - (t.V 1).Y))
    (h23 : (t.V 1).Y = (t.V 2).Y ∨ ε ≤ Abs ((t.V 1).Y - (t.V 2).Y)) :
    ∃ c : V2 K, InCircumcircle.centre ε t = some (c.X, c.Y) ∧ IsCircumcentre t c ∧
      (∀ d : V2 K, IsCircumcentre t d → d = c) ∧
      ∀ p : V2 K, InCircumcircle ε t p = some (decide (distSq p c - distSq (t.V 0) c ≤ ε)) := by
  obtain ⟨hret, c, hc, hcc⟩ := centre_exact ε t hε hnc h12 h23
  refine ⟨⟨c.1, c.2⟩, hc, hcc, fun d hd => circumcentre_unique t hnc d _ hd hcc, fun p => ?_⟩
  rw [inCircumcircle_of_centre ε t c hret hc p, hcc.1]

/-- The condition "equal or at least `ε` apart" on two y-coordinates does not
depend on their order. -/
theorem apart_symm {ε : K} {a b : V2 K} (h : a.Y = b.Y ∨ ε ≤ Abs (a.Y - b.Y)) :
    b.Y = a.Y ∨ ε ≤ Abs (b.Y - a.Y) := by
  rcases h with h | h
  · exact Or.inl h.symm
  · right
    simpa only [Abs, abs_sub_comm] using h

/-- The characterisation of `inCircumcircle_exact` for a triangle given by its
three points and any point `c` equidistant from them. -/
theorem inCircumcircle_points (ε : K) (a b c p o : V2 K) (hε : 0 < ε)
    (hnc : orient a b c ≠ 0)
    (hab : a.Y = b.Y ∨ ε ≤ Abs (a.Y - b.Y)) (hbc : b.Y = c.Y ∨ ε ≤ Abs (b.Y - c.Y))
    (h1 : distSq a o = distSq b o) (h2 : distSq b o = distSq c o) :
    InCircumcircle ε (NewTriangle2 a b c) p = some (decide (distSq p o - distSq a o ≤ ε)) := by
  obtain ⟨d, _, _, huniq, hp⟩ := inCircumcircle_exact ε (NewTriangle2 a b c) hε
    (by simpa [Collinear, NewTriangle2] using hnc)
    (by simpa [NewTriangle2] using hab) (by simpa [NewTriangle2] using hbc)
  have hod : o = d := huniq o (by simpa [IsCircumcentre, NewTriangle2] using And.intro h1 h2)
  subst hod
  simpa [NewTriangle2] using hp p

/-! ## Lemmas on `SuperTriangle` -/

theorem eighth_eq : (0.125 : K) = 1 / 8 := by norm_num

theorem foldl_min_le (ps : List (V2 K)) (p : V2 K) :
    ((ps.foldl (fun m v => (⟨min m.X v.X, min m.Y v.Y⟩ : V2 K)) p).X ≤ p.X ∧
     (ps.foldl (fun m v => (⟨min m.X v.X, min m.Y v.Y⟩ : V2 K)) p).Y ≤ p.Y) ∧
    ∀ q ∈ ps, (ps.foldl (fun m v => (⟨min m.X v.X, min m.Y v.Y⟩ : V2 K)) p).X ≤ q.X ∧
      (ps.foldl (fun m v => (⟨min m.X v.X, min m.Y v.Y⟩ : V2 K)) p).Y ≤ q.Y := by
  induction ps generalizing p with
  | nil => simp
  | cons a ps ih =>
    obtain ⟨⟨hx, hy⟩, hq⟩ := ih ⟨min p.X a.X, min p.Y a.Y⟩
    simp only [List.foldl_cons, List.mem_cons, forall_eq_or_imp]
    exact ⟨⟨hx.trans (min_le_left _ _), hy.trans (min_le_left _ _)⟩,
      ⟨hx.trans (min_le_right _ _), hy.trans (min_le_right _ _)⟩, hq⟩

theorem le_foldl_max (ps : List (V2 K)) (p : V2 K) :
    (p.X ≤ (ps.foldl (fun m v => (⟨max m.X v.X, max m.Y v.Y⟩ : V2 K)) p).X ∧
     p.Y ≤ (ps.foldl (fun m v => (⟨max m.X v.X, max m.Y v.Y⟩ : V2 K)) p).Y) ∧
    ∀ q ∈ ps, q.X ≤ (ps.foldl (fun m v => (⟨max m.X v.X, max m.Y v.Y⟩ : V2 K)) p).X ∧
      q.Y ≤ (ps.foldl (fun m v => (⟨max m.X v.X, max m.Y v.Y⟩ : V2 K)) p).Y := by
  induction ps generalizing p with
  | nil => simp
  | cons a ps ih =>
    obtain ⟨⟨hx, hy⟩, hq⟩ := ih ⟨max p.X a.X, max p.Y a.Y⟩
    simp only [List.foldl_cons, List.mem_cons, forall_eq_or_imp]
    exact ⟨⟨(le_max_left _ _).trans hx, (le_max_left _ _).trans hy⟩,
      ⟨(le_max_right _ _).trans hx, (le_max_right _ _).trans hy⟩, hq⟩

/-- Every point of the set is at or above the minimum corner of the bounding
box. -/
theorem V2Set.Min_le (s : V2Set K) (p : V2 K) (hp : p ∈ s) :
    (V2Set.Min s).X ≤ p.X ∧ (V2Set.Min s).Y ≤ p.Y := by
  match s, hp with
  | a :: ps, hp =>
    obtain ⟨ha, hq⟩ := foldl_min_le ps a
    rcases List.mem_cons.mp hp with rfl | hp
    · exact ha
    · exact hq p hp

/-- Every point of the set is at or below the maximum corner of the bounding
box. -/
theorem V2Set.le_Max (s : V2Set K) (p : V2 K) (hp : p ∈ s) :
    p.X ≤ (V2Set.Max s).X ∧ p.Y ≤ (V2Set.Max s).Y := by
  match s, hp with
  | a :: ps, hp =>
    obtain ⟨ha, hq⟩ := le_foldl_max ps a
    rcases List.mem_cons.mp hp with rfl | hp
    · exact ha
    · exact hq p hp

/-- The single-point branch (lines 70-83): the triangle around `p` with a
scale `k` that is not zero. -/
theorem superTriangle_single (p : V2 K) :
    ∃ k : K, k ≠ 0 ∧ SuperTriangle [p]
      = some (NewTriangle2 ⟨p.X - k, p.Y - k⟩ ⟨p.X + k, p.Y - k⟩ ⟨p.X, p.Y + k⟩) := by
  by_cases h : p.MaxComponent * 0.125 = 0
  · exact ⟨1, one_ne_zero, by simp [SuperTriangle, h]⟩
  · exact ⟨p.MaxComponent * 0.125, h, by simp [SuperTriangle, h]⟩

/-- The branch for two or more points (lines 85-94): a right triangle with
its right angle at the expanded box's minimum corner `(a, b)` and two legs of
length `L`, the sum of the expanded box's width and height; every input point
is at `(a + u, b + v)` with `0 ≤ u`, `0 ≤ v` and `u + v ≤ L`. -/
theorem superTriangle_multi (p q : V2 K) (r : V2Set K) :
    ∃ a b L : K, SuperTriangle (p :: q :: r)
        = some (NewTriangle2 ⟨a, b⟩ ⟨a + L, b⟩ ⟨a, b + L⟩) ∧
      ∀ v ∈ p :: q :: r, 0 ≤ v.X - a ∧ 0 ≤ v.Y - b ∧ (v.X - a) + (v.Y - b) ≤ L := by
  have hp : p ∈ p :: q :: r := List.mem_cons_self _ _
  obtain ⟨hx0, hy0⟩ := V2Set.Min_le (p :: q :: r) p hp
  obtain ⟨hx1, hy1⟩ := V2Set.le_Max (p :: q :: r) p hp
  have hw : 0 ≤ (V2Set.Max (p :: q :: r)).X - (V2Set.Min (p :: q :: r)).X := by linarith
  have hh : 0 ≤ (V2Set.Max (p :: q :: r)).Y - (V2Set.Min (p :: q :: r)).Y := by linarith
  have hk : 0 ≤ min ((V2Set.Max (p :: q :: r)).X - (V2Set.Min (p :: q :: r)).X)
      ((V2Set.Max (p :: q :: r)).Y - (V2Set.Min (p :: q :: r)).Y) * (1 / 8) :=
    mul_nonneg (le_min hw hh) (by norm_num)
  generalize hkdef : min ((V2Set.Max (p :: q :: r)).X - (V2Set.Min (p :: q :: r)).X)
      ((V2Set.Max (p :: q :: r)).Y - (V2Set.Min (p :: q :: r)).Y) * (1 / 8) = k at hk
  refine ⟨(V2Set.Min (p :: q :: r)).X - k, (V2Set.Min (p :: q :: r)).Y - k,
    ((V2Set.Max (p :: q :: r)).X + k - ((V2Set.Min (p :: q :: r)).X - k))
      + ((V2Set.Max (p :: q :: r)).Y + k - ((V2Set.Min (p :: q :: r)).Y - k)), ?_, ?_⟩
  · simp only [SuperTriangle, Box2.Size, V2.Sub, V2.Add, V2.MinComponent, eighth_eq, hkdef,
      add_assoc]
  · intro v hv
    obtain ⟨vx0, vy0⟩ := V2Set.Min_le (p :: q :: r) v hv
    obtain ⟨vx1, vy1⟩ := V2Set.le_Max (p :: q :: r) v hv
    refine ⟨?_, ?_, ?_⟩ <;> linarith

/-- The branch for two or more points in terms of the expanded box of lines
85-87: the right angle is at its minimum corner and the legs have the length
of its width plus its height. -/
theorem superTriangle_of_box (p q : V2 K) (r : V2Set K) :
    SuperTriangle (p :: q :: r)
      = some (NewTriangle2 (SuperTriangle.box (p :: q :: r)).Min
          ⟨(SuperTriangle.box (p :: q :: r)).Min.X + (SuperTriangle.box (p :: q :: r)).Size.X
            + (SuperTriangle.box (p :: q :: r)).Size.Y, (SuperTriangle.box (p :: q :: r)).Min.Y⟩
          ⟨(SuperTriangle.box (p :: q :: r)).Min.X,
            (SuperTriangle.box (p :: q :: r)).Min.Y + (SuperTriangle.box (p :: q :: r)).Size.X
            + (SuperTriangle.box (p :: q :: r)).Size.Y⟩) := rfl

/-- The expanded box of a non-empty point set: the margin `k` is not negative,
the minimum corner is the bounding box's moved by `-k` on both axes and the
size is the bounding box's plus `2k` on both axes. -/
theorem superTriangle_box_spec (s : V2Set K) (p : V2 K) (hp : p ∈ s) :
    ∃ k : K, k = min ((V2Set.Max s).X - (V2Set.Min s).X) ((V2Set.Max s).Y - (V2Set.Min s).Y) / 8 ∧
      0 ≤ k ∧ 0 ≤ (V2Set.Max s).X - (V2Set.Min s).X ∧ 0 ≤ (V2Set.Max s).Y - (V2Set.Min s).Y ∧
      (SuperTriangle.box s).Min = ⟨(V2Set.Min s).X - k, (V2Set.Min s).Y - k⟩ ∧
      (SuperTriangle.box s).Max = ⟨(V2Set.Max s).X + k, (V2Set.Max s).Y + k⟩ ∧
      (SuperTriangle.box s).Size.X = (V2Set.Max s).X - (V2Set.Min s).X + 2 * k ∧
      (SuperTriangle.box s).Size.Y = (V2Set.Max s).Y - (V2Set.Min s).Y + 2 * k := by
  obtain ⟨hx0, hy0⟩ := V2Set.Min_le s p hp
  obtain ⟨hx1, hy1⟩ := V2Set.le_Max s p hp
  have hw : 0 ≤ (V2Set.Max s).X - (V2Set.Min s).X := by linarith
  have hh : 0 ≤ (V2Set.Max s).Y - (V2Set.Min s).Y := by linarith
  refine ⟨_, rfl, div_nonneg (le_min hw hh) (by norm_num), hw, hh, ?_, ?_, ?_, ?_⟩
  · simp only [SuperTriangle.box, Box2.Size, V2.Sub, V2.MinComponent, eighth_eq, V2.mk.injEq]
    constructor <;> ring
  · simp only [SuperTriangle.box, Box2.Size, V2.Sub, V2.Add, V2.MinComponent, eighth_eq,
      V2.mk.injEq]
    constructor <;> ring
  · simp only [SuperTriangle.box, Box2.Size, V2.Sub, V2.Add, V2.MinComponent, eighth_eq]
    ring
  · simp only [SuperTriangle.box, Box2.Size, V2.Sub, V2.Add, V2.MinComponent, eighth_eq]
    ring

/-- The super-triangle of two or more points in coordinates: with `w`, `h`
the width and height of the bounding box and `k = min w h / 8`, the right
angle is at `(a, b) = (min.X - k, min.Y - k)` and the legs have the length
`L = w + h + 4k`. -/
theorem superTriangle_multi_margin (p q : V2 K) (r : V2Set K) :
    ∃ k a b L : K,
      k = min ((V2Set.Max (p :: q :: r)).X - (V2Set.Min (p :: q :: r)).X)
        ((V2Set.Max (p :: q :: r)).Y - (V2Set.Min (p :: q :: r)).Y) / 8 ∧
      0 ≤ k ∧ 0 ≤ (V2Set.Max (p :: q :: r)).X - (V2Set.Min (p :: q :: r)).X ∧
      0 ≤ (V2Set.Max (p :: q :: r)).Y - (V2Set.Min (p :: q :: r)).Y ∧
      a = (V2Set.Min (p :: q :: r)).X - k ∧ b = (V2Set.Min (p :: q :: r)).Y - k ∧
      L = ((V2Set.Max (p :: q :: r)).X - (V2Set.Min (p :: q :: r)).X)
        + ((V2Set.Max (p :: q :: r)).Y - (V2Set.Min (p :: q :: r)).Y) + 4 * k ∧
      SuperTriangle (p :: q :: r) = some (NewTriangle2 ⟨a, b⟩ ⟨a + L, b⟩ ⟨a, b + L⟩) := by
  obtain ⟨k, hk, hk0, hw, hh, hmin, _, hsx, hsy⟩ :=
    superTriangle_box_spec (p :: q :: r) p (List.mem_cons_self _ _)
  refine ⟨k, _, _, _, hk, hk0, hw, hh, rfl, rfl, rfl, ?_⟩
  rw [superTriangle_of_box, hsx, hsy, hmin]
  have e : ∀ x : K, x + ((V2Set.Max (p :: q :: r)).X - (V2Set.Min (p :: q :: r)).X + 2 * k)
      + ((V2Set.Max (p :: q :: r)).Y - (V2Set.Min (p :: q :: r)).Y + 2 * k)
      = x + (((V2Set.Max (p :: q :: r)).X - (V2Set.Min (p :: q :: r)).X)
        + ((V2Set.Max (p :: q :: r)).Y - (V2Set.Min (p :: q :: r)).Y) + 4 * k) :=
    fun x => by ring
  simp only [e]

/-- A point strictly between the legs and the hypotenuse of the right triangle
`(a,b), (a+L,b), (a,b+L)` is strictly inside it. -/
theorem strictlyInside_right (a b L : K) (q : V2 K) (hu : 0 < q.X - a) (hv : 0 < q.Y - b)
    (huv : (q.X - a) + (q.Y - b) < L) :
    StrictlyInside (NewTriangle2 ⟨a, b⟩ ⟨a + L, b⟩ ⟨a, b + L⟩) q := by
  have hL : 0 < L := by linarith
  left
  simp only [orient, NewTriangle2, Matrix.cons_val_zero, Matrix.cons_val_one,
    Matrix.head_cons, Matrix.cons_val_two, Matrix.tail_cons]
  refine ⟨?_, ?_, ?_⟩
  · have := mul_pos hL hv
    linarith
  · have := mul_pos hL (sub_pos.mpr huv)
    linarith
  · have := mul_pos hL hu
    linarith

/-- The single-point triangle of scale `k` has the orientation `4k²` and its
point strictly inside. -/
theorem superTriangle_single_strict (k : K) (p : V2 K) (hk : k ≠ 0) :
    0 < orient (⟨p.X - k, p.Y - k⟩ : V2 K) ⟨p.X + k, p.Y - k⟩ ⟨p.X, p.Y + k⟩ ∧
    StrictlyInside (NewTriangle2 ⟨p.X - k, p.Y - k⟩ ⟨p.X + k, p.Y - k⟩ ⟨p.X, p.Y + k⟩) p := by
  have hkk : 0 < k * k := mul_self_pos.mpr hk
  constructor
  · simp only [orient]
    linarith
  · left
    simp only [orient, NewTriangle2, Matrix.cons_val_zero, Matrix.cons_val_one,
      Matrix.head_cons, Matrix.cons_val_two, Matrix.tail_cons]
    refine ⟨?_, ?_, ?_⟩ <;> linarith

/-- A point no farther from the circumcentre than the vertices is reported as
inside. -/
theorem inCircumcircle_of_distSq_le (ε : K) (t : Triangle2 K) (hε : 0 < ε) (hnc : ¬ Collinear t)
    (h12 : (t.V 0).Y = (t.V 1).Y ∨ ε ≤ Abs ((t.V 0).Y - (t.V 1).Y))
    (h23 : (t.V 1).Y = (t.V 2).Y ∨ ε ≤ Abs ((t.V 1).Y - (t.V 2).Y))
    (d : V2 K) (hd : IsCircumcentre t d) (p : V2 K) (hp : distSq p d ≤ distSq (t.V 0) d) :
    InCircumcircle ε t p = some true := by
  obtain ⟨c, _, _, huniq, hc⟩ := inCircumcircle_exact ε t hε hnc h12 h23
  have hdc : d = c := huniq d hd
  subst hdc
  rw [hc]
  have : distSq p d - distSq (t.V 0) d ≤ ε := by linarith
  simpa using this

/-- The single-point super-triangle reports its point as inside. -/
theorem superTriangle_single_bad (ε k : K) (p : V2 K) (hε : 0 < ε)
    (hh : ε ≤ Abs ((p.Y + k) - (p.Y - k))) :
    InCircumcircle ε (NewTriangle2 ⟨p.X - k, p.Y - k⟩ ⟨p.X + k, p.Y - k⟩ ⟨p.X, p.Y + k⟩) p
      = some true := by
  have hk : k ≠ 0 := by
    rintro rfl
    simp [Abs] at hh
    exact absurd hε (not_lt.mpr hh)
  have hh2 : ε ≤ Abs ((p.Y - k) - (p.Y + k)) := by
    simpa only [Abs, abs_sub_comm] using hh
  refine inCircumcircle_of_distSq_le ε _ hε ?_ (Or.inl ?_) (Or.inr ?_) ⟨p.X, p.Y - k / 4⟩ ?_ p ?_
  · simp only [Collinear, orient, NewTriangle2, Matrix.cons_val_zero, Matrix.cons_val_one,
      Matrix.head_cons, Matrix.cons_val_two, Matrix.tail_cons]
    intro h
    apply hk
    have : k * k = 0 := by linear_combination (1 / 4 : K) * h
    exact mul_self_eq_zero.mp this
  · simp [NewTriangle2]
  · simpa [NewTriangle2] using hh2
  · simp only [IsCircumcentre, distSq, NewTriangle2, Matrix.cons_val_zero, Matrix.cons_val_one,
      Matrix.head_cons, Matrix.cons_val_two, Matrix.tail_cons]
    constructor <;> ring
  · simp only [distSq, NewTriangle2, Matrix.cons_val_zero]
    nlinarith [mul_self_nonneg k]

/-- The super-triangle of two or more points reports every point of its closed
region as inside. -/
theorem superTriangle_multi_bad (ε a b L : K) (p : V2 K) (hε : 0 < ε)
    (hh : ε ≤ Abs ((b + L) - b))
    (hu : 0 ≤ p.X - a) (hv : 0 ≤ p.Y - b) (huv : (p.X - a) + (p.Y - b) ≤ L) :
    InCircumcircle ε (NewTriangle2 ⟨a, b⟩ ⟨a + L, b⟩ ⟨a, b + L⟩) p = some true := by
  have hL : L ≠ 0 := by
    rintro rfl
    simp [Abs] at hh
    exact absurd hε (not_lt.mpr hh)
  have hh2 : ε ≤ Abs (b - (b + L)) := by
    simpa only [Abs, abs_sub_comm] using hh
  refine inCircumcircle_of_distSq_le ε _ hε ?_ (Or.inl ?_) (Or.inr ?_)
    ⟨a + L / 2, b + L / 2⟩ ?_ p ?_
  · simp only [Collinear, orient, NewTriangle2, Matrix.cons_val_zero, Matrix.cons_val_one,
      Matrix.head_cons, Matrix.cons_val_two, Matrix.tail_cons]
    intro h
    apply hL
    have : L * L = 0 := by linear_combination h
    exact mul_self_eq_zero.mp this
  · simp [NewTriangle2]
  · simpa [NewTriangle2] using hh2
  · simp only [IsCircumcentre, distSq, NewTriangle2, Matrix.cons_val_zero, Matrix.cons_val_one,
      Matrix.head_cons, Matrix.cons_val_two, Matrix.tail_cons]
    constructor <;> ring
  · simp only [distSq, NewTriangle2, Matrix.cons_val_zero]
    nlinarith [mul_nonneg hu hv, mul_nonneg (add_nonneg hu hv) (sub_nonneg.mpr huv)]

/-! ## Lemmas on `Normal` -/

/-- A vector that is not the zero vector has a positive sum of squares. -/
theorem V3.sumSq_pos (a : V3 K) (h : a ≠ ⟨0, 0, 0⟩) : 0 < a.X * a.X + a.Y * a.Y + a.Z * a.Z := by
  by_contra hle
  have hx := mul_self_nonneg a.X
  have hy := mul_self_nonneg a.Y
  have hz := mul_self_nonneg a.Z
  have h0 : a.X * a.X = 0 ∧ a.Y * a.Y = 0 ∧ a.Z * a.Z = 0 := by
    refine ⟨?_, ?_, ?_⟩ <;> linarith [not_lt.mp hle]
  apply h
  cases a
  simp only [V3.mk.injEq]
  exact ⟨mul_self_eq_zero.mp h0.1, mul_self_eq_zero.mp h0.2.1, mul_self_eq_zero.mp h0.2.2⟩

/-- Normalising a non-zero vector gives the vector scaled by a positive factor
whose square is the inverse of the sum of squares. -/
theorem V3.Normalize_spec (sqrt : K → K)
    (hsqrt : ∀ x : K, 0 ≤ x → 0 ≤ sqrt x ∧ sqrt x * sqrt x = x) (a : V3 K) (h : a ≠ ⟨0, 0, 0⟩) :
    ∃ l : K, 0 < l ∧ l * l * (a.X * a.X + a.Y * a.Y + a.Z * a.Z) = 1 ∧
      a.Normalize sqrt = some ⟨a.X * l, a.Y * l, a.Z * l⟩ := by
  have hpos := V3.sumSq_pos a h
  obtain ⟨h0, hsq⟩ := hsqrt _ hpos.le
  have hne : sqrt (a.X * a.X + a.Y * a.Y + a.Z * a.Z) ≠ 0 := by
    intro hz
    rw [hz] at hsq
    simp at hsq
    exact absurd hsq.symm (ne_of_gt hpos)
  have hlpos : 0 < sqrt (a.X * a.X + a.Y * a.Y + a.Z * a.Z) := lt_of_le_of_ne h0 (Ne.symm hne)
  refine ⟨1 / sqrt (a.X * a.X + a.Y * a.Y + a.Z * a.Z), by positivity, ?_, ?_⟩
  · generalize sqrt (a.X * a.X + a.Y * a.Y + a.Z * a.Z) = r at hsq hne
    rw [← hsq]
    field_simp
  · simp [V3.Normalize, V3.Length, quot_of_ne _ hne]

/-! ## Claims -/

/-- C1 (evaluation at the failing input): for the two points `(0,0)` and
`(1,0)` the bounding box has height zero, the margin `k` is zero, and
`SuperTriangle` returns the triangle `(0,0), (1,0), (0,1)`; the input point
`(0,0)` is a vertex of it, so it is not strictly inside. -/
theorem superTriangle_level_pair_not_strict :
    SuperTriangle ([⟨0, 0⟩, ⟨1, 0⟩] : V2Set ℚ) = some (NewTriangle2 ⟨0, 0⟩ ⟨1, 0⟩ ⟨0, 1⟩) ∧
    ¬ StrictlyInside (NewTriangle2 (⟨0, 0⟩ : V2 ℚ) ⟨1, 0⟩ ⟨0, 1⟩) ⟨0, 0⟩ := by
  constructor
  · simp [SuperTriangle, V2Set.Min, V2Set.Max, Box2.Size, V2.Sub, V2.Add, V2.MinComponent]
  · simp [StrictlyInside, orient, NewTriangle2]

/-- C2: for a non-collinear triangle with `|y1-y2| ≥ ε` and `|y2-y3| ≥ ε`
there is exactly one point `c` equidistant from the three vertices, and for
every point `p` the predicate `InCircumcircle` answers whether
`|p-c|² - R² ≤ ε`, with `R²` the squared distance from a vertex to `c`; the
tolerance `ε` is applied to squared distances as it is. -/
theorem inCircumcircle_general_branch (ε : K) (t : Triangle2 K) (hε : 0 < ε)
    (hnc : ¬ Collinear t)
    (h12 : ε ≤ Abs ((t.V 0).Y - (t.V 1).Y)) (h23 : ε ≤ Abs ((t.V 1).Y - (t.V 2).Y)) :
    ∃ c : V2 K, IsCircumcentre t c ∧ (∀ d : V2 K, IsCircumcentre t d → d = c) ∧
      ∀ p : V2 K, InCircumcircle ε t p = some (decide (distSq p c - distSq (t.V 0) c ≤ ε)) := by
  obtain ⟨c, _, hcc, huniq, hp⟩ := inCircumcircle_exact ε t hε hnc (Or.inr h12) (Or.inr h23)
  exact ⟨c, hcc, huniq, hp⟩

/-- C2 at the triangle `(0,0), (1,1), (0,2)` with `ε = 1e-12`. -/
theorem inCircumcircle_general_branch_witness :
    ∃ c : V2 ℚ, IsCircumcentre slantTriangle c ∧
      (∀ d : V2 ℚ, IsCircumcentre slantTriangle d → d = c) ∧
      ∀ p : V2 ℚ, InCircumcircle sampleEps slantTriangle p
        = some (decide (distSq p c - distSq (slantTriangle.V 0) c ≤ sampleEps)) :=
  inCircumcircle_general_branch sampleEps slantTriangle
    (by norm_num [sampleEps])
    (by norm_num [Collinear, orient, slantTriangle, NewTriangle2])
    (by norm_num [sampleEps, Abs, slantTriangle, NewTriangle2])
    (by norm_num [sampleEps, Abs, slantTriangle, NewTriangle2])

/-- C3 (counterexample): for the triangle `(0,0), (1,0), (0,1)` the predicate
is true at its own vertex `(1,0)`. -/
theorem inCircumcircle_vertex_true :
    InCircumcircle sampleEps rightTriangle (rightTriangle.V 1) = some true := by
  simp [InCircumcircle, InCircumcircle.centre, rightTriangle, NewTriangle2, Abs, quot, sampleEps]
  norm_num

/-- C3 (amended): for a non-collinear triangle whose consecutive
y-differences are each zero or at least `ε`, `InCircumcircle` is true at each
of the three vertices: a vertex is on the circle and the comparison
`drsqr - rsqr <= EPSILON` includes the circle. -/
theorem inCircumcircle_vertices (ε : K) (t : Triangle2 K) (hε : 0 < ε) (hnc : ¬ Collinear t)
    (h12 : (t.V 0).Y = (t.V 1).Y ∨ ε ≤ Abs ((t.V 0).Y - (t.V 1).Y))
    (h23 : (t.V 1).Y = (t.V 2).Y ∨ ε ≤ Abs ((t.V 1).Y - (t.V 2).Y)) (i : Fin 3) :
    InCircumcircle ε t (t.V i) = some true := by
  obtain ⟨c, _, hcc, _, hp⟩ := inCircumcircle_exact ε t hε hnc h12 h23
  have hi : distSq (t.V i) c = distSq (t.V 0) c := by
    fin_cases i
    · rfl
    · exact hcc.1.symm
    · exact (hcc.1.trans hcc.2).symm
  rw [hp, hi, sub_self]
  simpa using hε.le

/-- C3 (amended) at the triangle `(0,0), (1,0), (0,1)` and its vertex
`(0,1)`. -/
theorem inCircumcircle_vertices_witness :
    InCircumcircle sampleEps rightTriangle (rightTriangle.V 2) = some true :=
  inCircumcircle_vertices sampleEps rightTriangle
    (by norm_num [sampleEps])
    (by norm_num [Collinear, orient, rightTriangle, NewTriangle2])
    (Or.inl (by simp [rightTriangle, NewTriangle2]))
    (Or.inr (by norm_num [sampleEps, Abs, rightTriangle, NewTriangle2])) 2

/-- C4 (evaluation at the failing input): the triangle `(0,0), (0,0), (1,1)`
has coincident vertices, hence is collinear, and `InCircumcircle` answers true
at the point `(0,1)`. -/
theorem inCircumcircle_coincident_true :
    Collinear pinchedTriangle ∧
    InCircumcircle sampleEps pinchedTriangle ⟨0, 1⟩ = some true := by
  constructor
  · simp [Collinear, orient, pinchedTriangle, NewTriangle2]
  · simp [InCircumcircle, InCircumcircle.centre, pinchedTriangle, NewTriangle2, Abs, quot,
      sampleEps]
    norm_num

/-- C5: `SuperTriangle` returns nil exactly for the empty point set, and a
triangle exactly for a non-empty one. -/
theorem superTriangle_nil_iff (s : V2Set K) :
    (SuperTriangle s = none ↔ s = []) ∧ ((SuperTriangle s).isSome = true ↔ s ≠ []) := by
  match s with
  | [] => simp [SuperTriangle]
  | [p] => simp [SuperTriangle]
  | p :: q :: r => simp [SuperTriangle]

/-- C6 (counterexample): the edge from `(0,0)` to `(1,0)` does not equal the
edge from `(1,0)` to `(0,0)` within the tolerance `1/2`. -/
theorem edge2_equals_reversed_false :
    Edge2.Equals (⟨![⟨0, 0⟩, ⟨1, 0⟩]⟩ : Edge2 ℚ) ⟨![⟨1, 0⟩, ⟨0, 0⟩]⟩ (1 / 2) = false := by
  simp [Edge2.Equals, V2.Equals, Abs]
  norm_num

/-- C6 (amended): `a.Equals(b, tolerance)` is true if and only if the first
endpoints match within the tolerance and the second endpoints match within the
tolerance, in that order; the edge `(p,q)` equals the edge `(q,p)` if and only
if `p` and `q` match each other within the tolerance. -/
theorem edge2_equals_iff (a b : Edge2 K) (p q : V2 K) (tolerance : K) :
    (Edge2.Equals a b tolerance = true ↔
      (|(a.V 0).X - (b.V 0).X| ≤ tolerance ∧ |(a.V 0).Y - (b.V 0).Y| ≤ tolerance) ∧
      (|(a.V 1).X - (b.V 1).X| ≤ tolerance ∧ |(a.V 1).Y - (b.V 1).Y| ≤ tolerance)) ∧
    (Edge2.Equals ⟨![p, q]⟩ ⟨![q, p]⟩ tolerance = true ↔
      |p.X - q.X| ≤ tolerance ∧ |p.Y - q.Y| ≤ tolerance) := by
  constructor
  · simp [Edge2.Equals, V2.Equals, Abs]
  · simp only [Edge2.Equals, V2.Equals, Abs, Bool.and_eq_true, decide_eq_true_eq,
      Matrix.cons_val_zero, Matrix.cons_val_one, Matrix.head_cons, abs_sub_comm q.X p.X,
      abs_sub_comm q.Y p.Y]
    tauto

/-- C7: for every non-empty point set `SuperTriangle` returns a triangle whose
first two vertices share a y-coordinate, and when its height (the y-distance
from them to the third vertex) is at least `ε`, `InCircumcircle` on that
triangle is true at every point of the set: the early return is not taken and
the first insertion finds the super-triangle as a bad triangle. -/
theorem superTriangle_inCircumcircle (ε : K) (s : V2Set K) (hε : 0 < ε) (hs : s ≠ []) :
    ∃ t : Triangle2 K, SuperTriangle s = some t ∧ (t.V 0).Y = (t.V 1).Y ∧
      (ε ≤ Abs ((t.V 2).Y - (t.V 0).Y) → ∀ p ∈ s, InCircumcircle ε t p = some true) := by
  match s, hs with
  | [p], _ =>
    obtain ⟨k, _, hk⟩ := superTriangle_single p
    refine ⟨_, hk, by simp [NewTriangle2], fun hh q hq => ?_⟩
    rw [List.mem_singleton.mp hq]
    exact superTriangle_single_bad ε k p hε (by simpa [NewTriangle2] using hh)
  | p :: q :: r, _ =>
    obtain ⟨a, b, L, ht, hin⟩ := superTriangle_multi p q r
    refine ⟨_, ht, by simp [NewTriangle2], fun hh v hv => ?_⟩
    obtain ⟨hu, hv', huv⟩ := hin v hv
    exact superTriangle_multi_bad ε a b L v hε (by simpa [NewTriangle2] using hh) hu hv' huv

/-- C7 at the point set `(0,0), (1,0)` with `ε = 1e-12`: the super-triangle is
`(0,0), (1,0), (0,1)`, of height 1, and both points are reported inside. -/
theorem superTriangle_inCircumcircle_witness :
    SuperTriangle ([⟨0, 0⟩, ⟨1, 0⟩] : V2Set ℚ) = some (NewTriangle2 ⟨0, 0⟩ ⟨1, 0⟩ ⟨0, 1⟩) ∧
    InCircumcircle sampleEps (NewTriangle2 ⟨0, 0⟩ ⟨1, 0⟩ ⟨0, 1⟩) ⟨0, 0⟩ = some true ∧
    InCircumcircle sampleEps (NewTriangle2 ⟨0, 0⟩ ⟨1, 0⟩ ⟨0, 1⟩) ⟨1, 0⟩ = some true := by
  obtain ⟨t, ht, _, h⟩ := superTriangle_inCircumcircle sampleEps
    ([⟨0, 0⟩, ⟨1, 0⟩] : V2Set ℚ) (by norm_num [sampleEps]) (by simp)
  have hs : SuperTriangle ([⟨0, 0⟩, ⟨1, 0⟩] : V2Set ℚ)
      = some (NewTriangle2 ⟨0, 0⟩ ⟨1, 0⟩ ⟨0, 1⟩) := by
    simp [SuperTriangle, V2Set.Min, V2Set.Max, Box2.Size, V2.Sub, V2.Add, V2.MinComponent]
  rw [hs] at ht
  cases ht
  have hall := h (by norm_num [sampleEps, Abs, NewTriangle2])
  exact ⟨hs, hall _ (by simp), hall _ (by simp)⟩

/-- C8: for a 3d triangle whose vertices are not collinear, `Normal` returns a
vector of unit length, orthogonal to the edge vectors `V[1]-V[0]` and
`V[2]-V[0]`, and equal to a positive multiple of their cross product; `sqrt`
is the square root of the arithmetic. -/
theorem triangle3_normal (sqrt : K → K)
    (hsqrt : ∀ x : K, 0 ≤ x → 0 ≤ sqrt x ∧ sqrt x * sqrt x = x)
    (t : Triangle3 K) (hnc : ¬ t.Collinear) :
    ∃ n : V3 K, t.Normal sqrt = some n ∧ n.Dot n = 1 ∧
      n.Dot ((t.V 1).Sub (t.V 0)) = 0 ∧ n.Dot ((t.V 2).Sub (t.V 0)) = 0 ∧
      ∃ l : K, 0 < l ∧
        n = ⟨(((t.V 1).Sub (t.V 0)).Cross ((t.V 2).Sub (t.V 0))).X * l,
             (((t.V 1).Sub (t.V 0)).Cross ((t.V 2).Sub (t.V 0))).Y * l,
             (((t.V 1).Sub (t.V 0)).Cross ((t.V 2).Sub (t.V 0))).Z * l⟩ := by
  obtain ⟨l, hl, hsq, hn⟩ := V3.Normalize_spec sqrt hsqrt _ hnc
  refine ⟨_, hn, ?_, ?_, ?_, l, hl, rfl⟩
  · simp only [V3.Dot]
    linear_combination hsq
  · simp only [V3.Dot, V3.Cross, V3.Sub]
    ring
  · simp only [V3.Dot, V3.Cross, V3.Sub]
    ring

/-- C8 over the reals at the triangle `(0,0,0), (1,0,0), (0,1,0)`: the normal
is the unit vector `(0,0,1)`. -/
theorem triangle3_normal_witness :
    ∃ n : V3 ℝ, (NewTriangle3 ⟨0, 0, 0⟩ ⟨1, 0, 0⟩ ⟨0, 1, 0⟩).Normal Real.sqrt = some n ∧
      n.Dot n = 1 ∧ n = ⟨0, 0, 1⟩ := by
  obtain ⟨n, hn, hunit, _, _, l, _, hl⟩ := triangle3_normal Real.sqrt
    (fun x hx => ⟨Real.sqrt_nonneg x, Real.mul_self_sqrt hx⟩)
    (NewTriangle3 (⟨0, 0, 0⟩ : V3 ℝ) ⟨1, 0, 0⟩ ⟨0, 1, 0⟩)
    (by simp [Triangle3.Collinear, NewTriangle3, V3.Cross, V3.Sub])
  refine ⟨n, hn, hunit, ?_⟩
  have h1 : (NewTriangle3 (⟨0, 0, 0⟩ : V3 ℝ) ⟨1, 0, 0⟩ ⟨0, 1, 0⟩).Normal Real.sqrt
      = some ⟨0, 0, 1⟩ := by
    simp [Triangle3.Normal, NewTriangle3, V3.Normalize, V3.Length, V3.Cross, V3.Sub, quot]
  rw [h1] at hn
  exact (Option.some.inj hn).symm

/-- C10: for a non-collinear triangle with exactly one horizontal edge among
its two consecutive edges, the centre computed by the fallback branch is the
one point equidistant from the three vertices, and for every point `p` the
predicate answers whether `|p-c|² - R² ≤ ε`. -/
theorem inCircumcircle_fallback_branch (ε : K) (t : Triangle2 K) (hε : 0 < ε)
    (hnc : ¬ Collinear t)
    (h : ((t.V 0).Y = (t.V 1).Y ∧ ε ≤ Abs ((t.V 1).Y - (t.V 2).Y)) ∨
         ((t.V 1).Y = (t.V 2).Y ∧ ε ≤ Abs ((t.V 0).Y - (t.V 1).Y))) :
    ∃ c : V2 K, InCircumcircle.centre ε t = some (c.X, c.Y) ∧ IsCircumcentre t c ∧
      (∀ d : V2 K, IsCircumcentre t d → d = c) ∧
      ∀ p : V2 K, InCircumcircle ε t p = some (decide (distSq p c - distSq (t.V 0) c ≤ ε)) := by
  rcases h with ⟨h12, h23⟩ | ⟨h23, h12⟩
  · exact inCircumcircle_exact ε t hε hnc (Or.inl h12) (Or.inr h23)
  · exact inCircumcircle_exact ε t hε hnc (Or.inr h12) (Or.inl h23)

/-- C10 at the triangle `(0,0), (1,0), (0,1)` with `ε = 1e-12`. -/
theorem inCircumcircle_fallback_branch_witness :
    ∃ c : V2 ℚ, InCircumcircle.centre sampleEps rightTriangle = some (c.X, c.Y) ∧
      IsCircumcentre rightTriangle c ∧
      (∀ d : V2 ℚ, IsCircumcentre rightTriangle d → d = c) ∧
      ∀ p : V2 ℚ, InCircumcircle sampleEps rightTriangle p
        = some (decide (distSq p c - distSq (rightTriangle.V 0) c ≤ sampleEps)) :=
  inCircumcircle_fallback_branch sampleEps rightTriangle
    (by norm_num [sampleEps])
    (by norm_num [Collinear, orient, rightTriangle, NewTriangle2])
    (Or.inl ⟨by simp [rightTriangle, NewTriangle2],
      by norm_num [sampleEps, Abs, rightTriangle, NewTriangle2]⟩)

/-- C11: for a point set of two or more points whose bounding box has positive
width and positive height, `SuperTriangle` returns a triangle with every point
of the set strictly inside it, and with every point of the bounding box
strictly inside it. -/
theorem superTriangle_strict_of_box_pos (s : V2Set K) (h2 : 2 ≤ s.length)
    (hw : (V2Set.Min s).X < (V2Set.Max s).X) (hh : (V2Set.Min s).Y < (V2Set.Max s).Y) :
    ∃ t : Triangle2 K, SuperTriangle s = some t ∧ (∀ v ∈ s, StrictlyInside t v) ∧
      ∀ v : V2 K, (V2Set.Min s).X ≤ v.X → v.X ≤ (V2Set.Max s).X →
        (V2Set.Min s).Y ≤ v.Y → v.Y ≤ (V2Set.Max s).Y → StrictlyInside t v := by
  match s, h2 with
  | p :: q :: r, _ =>
    obtain ⟨k, a, b, L, hk, _, _, _, ha, hb, hL, ht⟩ := superTriangle_multi_margin p q r
    have hkpos : 0 < k := by
      rw [hk]
      exact div_pos (lt_min (sub_pos.mpr hw) (sub_pos.mpr hh)) (by norm_num)
    have hbox : ∀ v : V2 K, (V2Set.Min (p :: q :: r)).X ≤ v.X →
        v.X ≤ (V2Set.Max (p :: q :: r)).X → (V2Set.Min (p :: q :: r)).Y ≤ v.Y →
        v.Y ≤ (V2Set.Max (p :: q :: r)).Y →
        StrictlyInside (NewTriangle2 ⟨a, b⟩ ⟨a + L, b⟩ ⟨a, b + L⟩) v := by
      intro v hx0 hx1 hy0 hy1
      apply strictlyInside_right <;> linarith
    refine ⟨_, ht, fun v hv => ?_, hbox⟩
    obtain ⟨hx0, hy0⟩ := V2Set.Min_le (p :: q :: r) v hv
    obtain ⟨hx1, hy1⟩ := V2Set.le_Max (p :: q :: r) v hv
    exact hbox v hx0 hx1 hy0 hy1

/-- C11 at the points `(0,0), (1,1)`: the super-triangle is
`(-1/8,-1/8), (19/8,-1/8), (-1/8,19/8)`; both points and the box corner `(1,0)`
are strictly inside it. -/
theorem superTriangle_strict_of_box_pos_witness :
    SuperTriangle diagonalPair
      = some (NewTriangle2 ⟨-1 / 8, -1 / 8⟩ ⟨19 / 8, -1 / 8⟩ ⟨-1 / 8, 19 / 8⟩) ∧
    StrictlyInside (NewTriangle2 (⟨-1 / 8, -1 / 8⟩ : V2 ℚ) ⟨19 / 8, -1 / 8⟩ ⟨-1 / 8, 19 / 8⟩) ⟨0, 0⟩ ∧
    StrictlyInside (NewTriangle2 (⟨-1 / 8, -1 / 8⟩ : V2 ℚ) ⟨19 / 8, -1 / 8⟩ ⟨-1 / 8, 19 / 8⟩) ⟨1, 1⟩ ∧
    StrictlyInside (NewTriangle2 (⟨-1 / 8, -1 / 8⟩ : V2 ℚ) ⟨19 / 8, -1 / 8⟩ ⟨-1 / 8, 19 / 8⟩) ⟨1, 0⟩ := by
  obtain ⟨t, ht, hin, hbox⟩ := superTriangle_strict_of_box_pos diagonalPair
    (by simp [diagonalPair]) (by norm_num [diagonalPair, V2Set.Min, V2Set.Max])
    (by norm_num [diagonalPair, V2Set.Min, V2Set.Max])
  have hrun : SuperTriangle diagonalPair
      = some (NewTriangle2 ⟨-1 / 8, -1 / 8⟩ ⟨19 / 8, -1 / 8⟩ ⟨-1 / 8, 19 / 8⟩) := by
    simp [SuperTriangle, diagonalPair, V2Set.Min, V2Set.Max, Box2.Size, V2.Sub, V2.Add,
      V2.MinComponent]
    norm_num
  rw [hrun] at ht
  cases ht
  exact ⟨hrun, hin _ (by simp [diagonalPair]), hin _ (by simp [diagonalPair]),
    hbox ⟨1, 0⟩ (by norm_num [diagonalPair, V2Set.Min, V2Set.Max])
      (by norm_num [diagonalPair, V2Set.Min, V2Set.Max])
      (by norm_num [diagonalPair, V2Set.Min, V2Set.Max])
      (by norm_num [diagonalPair, V2Set.Min, V2Set.Max])⟩

/-- C12: for a single point `p`, `SuperTriangle` returns the triangle
`(x-k, y-k), (x+k, y-k), (x, y+k)` whose scale `k` is 1 when the maximum
component of `p` is 0 and one eighth of it otherwise; its area is not zero and
`p` is strictly inside it. -/
theorem superTriangle_single_point (p : V2 K) :
    ∃ (k : K) (t : Triangle2 K),
      k = (if p.MaxComponent = 0 then 1 else p.MaxComponent / 8) ∧
      t = NewTriangle2 ⟨p.X - k, p.Y - k⟩ ⟨p.X + k, p.Y - k⟩ ⟨p.X, p.Y + k⟩ ∧
      SuperTriangle [p] = some t ∧
      orient (t.V 0) (t.V 1) (t.V 2) ≠ 0 ∧ StrictlyInside t p := by
  have hk : (if p.MaxComponent = 0 then (1 : K) else p.MaxComponent / 8) ≠ 0 := by
    split_ifs with h
    · exact one_ne_zero
    · exact div_ne_zero h (by norm_num)
  obtain ⟨hpos, hin⟩ := superTriangle_single_strict _ p hk
  refine ⟨_, _, rfl, rfl, ?_, ?_, hin⟩
  · by_cases h : p.MaxComponent = 0
    · simp [SuperTriangle, h]
    · simp only [SuperTriangle, eighth_eq, if_neg h]
      have h8 : p.MaxComponent / 8 ≠ 0 := div_ne_zero h (by norm_num)
      simp only [mul_one_div, if_neg h8]
  · simpa [NewTriangle2] using ne_of_gt hpos

/-- C13 (counterexample): for the points `(0,0), (1,1)` the expanded box is
`[-1/8, 9/8] × [-1/8, 9/8]`, its squared diagonal is `25/8`, and both legs of
the super-triangle have the squared length `25/4`, which is below the square
`25/2` of twice the diagonal. -/
theorem superTriangle_legs_below_twice_diagonal :
    SuperTriangle diagonalPair
      = some (NewTriangle2 ⟨-1 / 8, -1 / 8⟩ ⟨19 / 8, -1 / 8⟩ ⟨-1 / 8, 19 / 8⟩) ∧
    (SuperTriangle.box diagonalPair).Min = ⟨-1 / 8, -1 / 8⟩ ∧
    (SuperTriangle.box diagonalPair).Max = ⟨9 / 8, 9 / 8⟩ ∧
    distSq (⟨-1 / 8, -1 / 8⟩ : V2 ℚ) ⟨19 / 8, -1 / 8⟩ = 25 / 4 ∧
    distSq (⟨-1 / 8, -1 / 8⟩ : V2 ℚ) ⟨-1 / 8, 19 / 8⟩ = 25 / 4 ∧
    distSq (SuperTriangle.box diagonalPair).Min (SuperTriangle.box diagonalPair).Max = 25 / 8 ∧
    distSq (⟨-1 / 8, -1 / 8⟩ : V2 ℚ) ⟨19 / 8, -1 / 8⟩
      < 2 * 2 * distSq (SuperTriangle.box diagonalPair).Min (SuperTriangle.box diagonalPair).Max := by
  have hmin : (SuperTriangle.box diagonalPair).Min = ⟨-1 / 8, -1 / 8⟩ := by
    simp [SuperTriangle.box, diagonalPair, V2Set.Min, V2Set.Max, Box2.Size, V2.Sub,
      V2.MinComponent]
    norm_num
  have hmax : (SuperTriangle.box diagonalPair).Max = ⟨9 / 8, 9 / 8⟩ := by
    simp [SuperTriangle.box, diagonalPair, V2Set.Min, V2Set.Max, Box2.Size, V2.Sub, V2.Add,
      V2.MinComponent]
    norm_num
  refine ⟨?_, hmin, hmax, ?_, ?_, ?_, ?_⟩
  · simp [SuperTriangle, diagonalPair, V2Set.Min, V2Set.Max, Box2.Size, V2.Sub, V2.Add,
      V2.MinComponent]
    norm_num
  · norm_num [distSq]
  · norm_num [distSq]
  · rw [hmin, hmax]
    norm_num [distSq]
  · rw [hmin, hmax]
    norm_num [distSq]

/-- C13 (amended): over exact arithmetic, for a point set of two or more
points, with the expanded box the bounding box grown on every side by `k`, one
eighth of its smaller dimension, both legs of the super-triangle have the
length of the expanded box's width plus its height; the square of that length
is at least the squared diagonal of the expanded box and at most twice the
squared diagonal. -/
theorem superTriangle_legs (p q : V2 K) (r : V2Set K) :
    ∃ (k : K) (t : Triangle2 K),
      k = min ((V2Set.Max (p :: q :: r)).X - (V2Set.Min (p :: q :: r)).X)
        ((V2Set.Max (p :: q :: r)).Y - (V2Set.Min (p :: q :: r)).Y) / 8 ∧
      (SuperTriangle.box (p :: q :: r)).Min
        = ⟨(V2Set.Min (p :: q :: r)).X - k, (V2Set.Min (p :: q :: r)).Y - k⟩ ∧
      (SuperTriangle.box (p :: q :: r)).Max
        = ⟨(V2Set.Max (p :: q :: r)).X + k, (V2Set.Max (p :: q :: r)).Y + k⟩ ∧
      SuperTriangle (p :: q :: r) = some t ∧
      0 ≤ (SuperTriangle.box (p :: q :: r)).Size.X ∧
      0 ≤ (SuperTriangle.box (p :: q :: r)).Size.Y ∧
      distSq (t.V 0) (t.V 1)
        = ((SuperTriangle.box (p :: q :: r)).Size.X + (SuperTriangle.box (p :: q :: r)).Size.Y)
          * ((SuperTriangle.box (p :: q :: r)).Size.X + (SuperTriangle.box (p :: q :: r)).Size.Y) ∧
      distSq (t.V 0) (t.V 2)
        = ((SuperTriangle.box (p :: q :: r)).Size.X + (SuperTriangle.box (p :: q :: r)).Size.Y)
          * ((SuperTriangle.box (p :: q :: r)).Size.X + (SuperTriangle.box (p :: q :: r)).Size.Y) ∧
      distSq (SuperTriangle.box (p :: q :: r)).Min (SuperTriangle.box (p :: q :: r)).Max
        ≤ distSq (t.V 0) (t.V 1) ∧
      distSq (t.V 0) (t.V 1)
        ≤ 2 * distSq (SuperTriangle.box (p :: q :: r)).Min (SuperTriangle.box (p :: q :: r)).Max := by
  obtain ⟨k, hk, hk0, hw, hh, hmin, hmax, hsx, hsy⟩ :=
    superTriangle_box_spec (p :: q :: r) p (List.mem_cons_self _ _)
  have hx : 0 ≤ (SuperTriangle.box (p :: q :: r)).Size.X := by rw [hsx]; linarith
  have hy : 0 ≤ (SuperTriangle.box (p :: q :: r)).Size.Y := by rw [hsy]; linarith
  have hd : distSq (SuperTriangle.box (p :: q :: r)).Min (SuperTriangle.box (p :: q :: r)).Max
      = (SuperTriangle.box (p :: q :: r)).Size.X * (SuperTriangle.box (p :: q :: r)).Size.X
        + (SuperTriangle.box (p :: q :: r)).Size.Y * (SuperTriangle.box (p :: q :: r)).Size.Y := by
    simp only [distSq, Box2.Size, V2.Sub]
    ring
  have h1 : distSq (SuperTriangle.box (p :: q :: r)).Min
      ⟨(SuperTriangle.box (p :: q :: r)).Min.X + (SuperTriangle.box (p :: q :: r)).Size.X
        + (SuperTriangle.box (p :: q :: r)).Size.Y, (SuperTriangle.box (p :: q :: r)).Min.Y⟩
      = ((SuperTriangle.box (p :: q :: r)).Size.X + (SuperTriangle.box (p :: q :: r)).Size.Y)
        * ((SuperTriangle.box (p :: q :: r)).Size.X + (SuperTriangle.box (p :: q :: r)).Size.Y) := by
    simp only [distSq]
    ring
  have h2 : distSq (SuperTriangle.box (p :: q :: r)).Min
      ⟨(SuperTriangle.box (p :: q :: r)).Min.X,
        (SuperTriangle.box (p :: q :: r)).Min.Y + (SuperTriangle.box (p :: q :: r)).Size.X
        + (SuperTriangle.box (p :: q :: r)).Size.Y⟩
      = ((SuperTriangle.box (p :: q :: r)).Size.X + (SuperTriangle.box (p :: q :: r)).Size.Y)
        * ((SuperTriangle.box (p :: q :: r)).Size.X + (SuperTriangle.box (p :: q :: r)).Size.Y) := by
    simp only [distSq]
    ring
  refine ⟨k, _, hk, hmin, hmax, superTriangle_of_box p q r, hx, hy, ?_, ?_, ?_, ?_⟩
  · simpa [NewTriangle2] using h1
  · simpa [NewTriangle2] using h2
  · simp only [NewTriangle2, Matrix.cons_val_zero, Matrix.cons_val_one, Matrix.head_cons]
    rw [h1, hd]
    nlinarith [mul_nonneg hx hy]
  · simp only [NewTriangle2, Matrix.cons_val_zero, Matrix.cons_val_one, Matrix.head_cons]
    rw [h1, hd]
    nlinarith [mul_self_nonneg ((SuperTriangle.box (p :: q :: r)).Size.X
      - (SuperTriangle.box (p :: q :: r)).Size.Y)]

/-- C16: for a point set that is a single point or holds two distinct points,
`SuperTriangle` returns a triangle whose orientation (twice its signed area) is
positive: the vertices are in counter-clockwise order and not on one line. -/
theorem superTriangle_ccw (s : V2Set K)
    (h : s.length = 1 ∨ ∃ p ∈ s, ∃ q ∈ s, p ≠ q) :
    ∃ t : Triangle2 K, SuperTriangle s = some t ∧ 0 < orient (t.V 0) (t.V 1) (t.V 2) / 2 := by
  match s, h with
  | [], h =>
    rcases h with h | ⟨p, hp, _⟩
    · simp at h
    · simp at hp
  | [a], _ =>
    obtain ⟨k, hk, ht⟩ := superTriangle_single a
    refine ⟨_, ht, ?_⟩
    have := (superTriangle_single_strict k a hk).1
    simpa [NewTriangle2] using this
  | a :: b :: r, h =>
    rcases h with h | ⟨p, hp, q, hq, hpq⟩
    · simp at h
    obtain ⟨k, x, y, L, _, hk0, hw, hh, _, _, hL, ht⟩ := superTriangle_multi_margin a b r
    obtain ⟨px0, py0⟩ := V2Set.Min_le (a :: b :: r) p hp
    obtain ⟨px1, py1⟩ := V2Set.le_Max (a :: b :: r) p hp
    obtain ⟨qx0, qy0⟩ := V2Set.Min_le (a :: b :: r) q hq
    obtain ⟨qx1, qy1⟩ := V2Set.le_Max (a :: b :: r) q hq
    have hLpos : 0 < L := by
      by_contra hle
      have hw0 : (V2Set.Max (a :: b :: r)).X - (V2Set.Min (a :: b :: r)).X = 0 := by linarith
      have hh0 : (V2Set.Max (a :: b :: r)).Y - (V2Set.Min (a :: b :: r)).Y = 0 := by linarith
      apply hpq
      cases p
      cases q
      simp only [V2.mk.injEq]
      simp only at px0 py0 px1 py1 qx0 qy0 qx1 qy1
      constructor <;> linarith
    refine ⟨_, ht, ?_⟩
    have hLL : 0 < L * L := mul_pos hLpos hLpos
    simp only [orient, NewTriangle2, Matrix.cons_val_zero, Matrix.cons_val_one,
      Matrix.head_cons, Matrix.cons_val_two, Matrix.tail_cons]
    linarith

/-- C16 at the single point `(-8,-16)`, whose scale `k = -1` is negative: the
super-triangle is `(-7,-15), (-9,-15), (-8,-17)`, of signed area 2. -/
theorem superTriangle_ccw_witness :
    SuperTriangle lowPoint = some (NewTriangle2 ⟨-7, -15⟩ ⟨-9, -15⟩ ⟨-8, -17⟩) ∧
    0 < orient (⟨-7, -15⟩ : V2 ℚ) ⟨-9, -15⟩ ⟨-8, -17⟩ / 2 := by
  obtain ⟨t, ht, hpos⟩ := superTriangle_ccw lowPoint (Or.inl (by simp [lowPoint]))
  have hrun : SuperTriangle lowPoint = some (NewTriangle2 ⟨-7, -15⟩ ⟨-9, -15⟩ ⟨-8, -17⟩) := by
    simp [SuperTriangle, lowPoint, V2.MaxComponent]
    norm_num
  rw [hrun] at ht
  cases ht
  exact ⟨hrun, by simpa [NewTriangle2] using hpos⟩

/-- C14 (counterexample): the triangle `(0,0), (2e12, 5e-13), (4e12, 0)` has
both y-differences below `ε = 1e-12`, so `InCircumcircle` takes the early
return and answers false, also for the point `(2e12, 2.5e-13)` strictly inside
the triangle; yet its vertices are not collinear and its orientation cross
product is `-2`, of magnitude above `ε`. -/
theorem inCircumcircle_rejects_flat_triangle :
    Abs ((flatTriangle.V 0).Y - (flatTriangle.V 1).Y) < sampleEps ∧
    Abs ((flatTriangle.V 1).Y - (flatTriangle.V 2).Y) < sampleEps ∧
    InCircumcircle sampleEps flatTriangle ⟨2000000000000, 1 / 4000000000000⟩ = some false ∧
    orient (flatTriangle.V 0) (flatTriangle.V 1) (flatTriangle.V 2) = -2 ∧
    sampleEps ≤ |orient (flatTriangle.V 0) (flatTriangle.V 1) (flatTriangle.V 2)| ∧
    ¬ Collinear flatTriangle ∧
    StrictlyInside flatTriangle ⟨2000000000000, 1 / 4000000000000⟩ := by
  have ho : orient (flatTriangle.V 0) (flatTriangle.V 1) (flatTriangle.V 2) = -2 := by
    norm_num [orient, flatTriangle, NewTriangle2]
  refine ⟨?_, ?_, ?_, ho, ?_, ?_, ?_⟩
  · norm_num [Abs, flatTriangle, NewTriangle2, sampleEps, abs_lt]
  · norm_num [Abs, flatTriangle, NewTriangle2, sampleEps, abs_lt]
  · norm_num [InCircumcircle, Abs, flatTriangle, NewTriangle2, sampleEps, abs_lt]
  · rw [ho]
    norm_num [sampleEps]
  · simp only [Collinear, ho]
    norm_num
  · right
    norm_num [orient, flatTriangle, NewTriangle2]

/-- C14 (amended): for a triangle with `|y1-y2| < ε` and `|y2-y3| < ε`,
`InCircumcircle` returns false for every point, whatever the x-coordinates
are; the orientation cross product of such a triangle is at most
`ε (|x2-x1| + |x3-x2|)` in magnitude. -/
theorem inCircumcircle_early_return (ε : K) (t : Triangle2 K)
    (h12 : Abs ((t.V 0).Y - (t.V 1).Y) < ε) (h23 : Abs ((t.V 1).Y - (t.V 2).Y) < ε) :
    (∀ p : V2 K, InCircumcircle ε t p = some false) ∧
    |orient (t.V 0) (t.V 1) (t.V 2)|
      ≤ ε * (|(t.V 1).X - (t.V 0).X| + |(t.V 2).X - (t.V 1).X|) := by
  constructor
  · intro p
    simp only [InCircumcircle, if_pos (And.intro h12 h23)]
  · have key : orient (t.V 0) (t.V 1) (t.V 2)
        = ((t.V 1).X - (t.V 0).X) * ((t.V 2).Y - (t.V 1).Y)
          - ((t.V 1).Y - (t.V 0).Y) * ((t.V 2).X - (t.V 1).X) := by
      simp only [orient]
      ring
    have ha : |(t.V 1).Y - (t.V 0).Y| ≤ ε := by
      rw [abs_sub_comm]
      exact h12.le
    have hb : |(t.V 2).Y - (t.V 1).Y| ≤ ε := by
      rw [abs_sub_comm]
      exact h23.le
    rw [key]
    calc |((t.V 1).X - (t.V 0).X) * ((t.V 2).Y - (t.V 1).Y)
          - ((t.V 1).Y - (t.V 0).Y) * ((t.V 2).X - (t.V 1).X)|
        ≤ |((t.V 1).X - (t.V 0).X) * ((t.V 2).Y - (t.V 1).Y)|
          + |((t.V 1).Y - (t.V 0).Y) * ((t.V 2).X - (t.V 1).X)| := abs_sub _ _
      _ = |(t.V 1).X - (t.V 0).X| * |(t.V 2).Y - (t.V 1).Y|
          + |(t.V 1).Y - (t.V 0).Y| * |(t.V 2).X - (t.V 1).X| := by rw [abs_mul, abs_mul]
      _ ≤ |(t.V 1).X - (t.V 0).X| * ε + ε * |(t.V 2).X - (t.V 1).X| :=
          add_le_add (mul_le_mul_of_nonneg_left hb (abs_nonneg _))
            (mul_le_mul_of_nonneg_right ha (abs_nonneg _))
      _ = ε * (|(t.V 1).X - (t.V 0).X| + |(t.V 2).X - (t.V 1).X|) := by ring

/-- C14 (amended) at the triangle `(0,0), (2e12, 5e-13), (4e12, 0)` with
`ε = 1e-12`: false at the point `(1,1)`, and the cross product is at most
`ε · 4e12 = 4` in magnitude. -/
theorem inCircumcircle_early_return_witness :
    InCircumcircle sampleEps flatTriangle ⟨1, 1⟩ = some false ∧
    |orient (flatTriangle.V 0) (flatTriangle.V 1) (flatTriangle.V 2)|
      ≤ sampleEps * (|(flatTriangle.V 1).X - (flatTriangle.V 0).X|
        + |(flatTriangle.V 2).X - (flatTriangle.V 1).X|) :=
  ⟨(inCircumcircle_early_return sampleEps flatTriangle
      (by norm_num [Abs, flatTriangle, NewTriangle2, sampleEps, abs_lt])
      (by norm_num [Abs, flatTriangle, NewTriangle2, sampleEps, abs_lt])).1 ⟨1, 1⟩,
    (inCircumcircle_early_return sampleEps flatTriangle
      (by norm_num [Abs, flatTriangle, NewTriangle2, sampleEps, abs_lt])
      (by norm_num [Abs, flatTriangle, NewTriangle2, sampleEps, abs_lt])).2⟩

/-- C15: for three points that are not collinear and whose y-coordinates are
pairwise equal or at least `ε` apart, and for every point `p`, `InCircumcircle`
returns one and the same answer on the six orderings of the three points as
the vertices of the triangle. -/
theorem inCircumcircle_order_independent (ε : K) (a b c p : V2 K) (hε : 0 < ε)
    (hnc : orient a b c ≠ 0)
    (hab : a.Y = b.Y ∨ ε ≤ Abs (a.Y - b.Y)) (hbc : b.Y = c.Y ∨ ε ≤ Abs (b.Y - c.Y))
    (hac : a.Y = c.Y ∨ ε ≤ Abs (a.Y - c.Y)) :
    ∃ r : Bool,
      InCircumcircle ε (NewTriangle2 a b c) p = some r ∧
      InCircumcircle ε (NewTriangle2 a c b) p = some r ∧
      InCircumcircle ε (NewTriangle2 b a c) p = some r ∧
      InCircumcircle ε (NewTriangle2 b c a) p = some r ∧
      InCircumcircle ε (NewTriangle2 c a b) p = some r ∧
      InCircumcircle ε (NewTriangle2 c b a) p = some r := by
  obtain ⟨o, _, hcc, _, _⟩ := inCircumcircle_exact ε (NewTriangle2 a b c) hε
    (by simpa [Collinear, NewTriangle2] using hnc)
    (by simpa [NewTriangle2] using hab) (by simpa [NewTriangle2] using hbc)
  obtain ⟨h1, h2⟩ : distSq a o = distSq b o ∧ distSq b o = distSq c o := by
    simpa [IsCircumcentre, NewTriangle2] using hcc
  have h3 : distSq a o = distSq c o := h1.trans h2
  have n1 : orient a c b ≠ 0 := fun h => hnc (by simp only [orient] at h ⊢; linear_combination -h)
  have n2 : orient b a c ≠ 0 := fun h => hnc (by simp only [orient] at h ⊢; linear_combination -h)
  have n3 : orient b c a ≠ 0 := fun h => hnc (by simp only [orient] at h ⊢; linear_combination h)
  have n4 : orient c a b ≠ 0 := fun h => hnc (by simp only [orient] at h ⊢; linear_combination h)
  have n5 : orient c b a ≠ 0 := fun h => hnc (by simp only [orient] at h ⊢; linear_combination -h)
  refine ⟨decide (distSq p o - distSq a o ≤ ε), ?_, ?_, ?_, ?_, ?_, ?_⟩
  · exact inCircumcircle_points ε a b c p o hε hnc hab hbc h1 h2
  · exact inCircumcircle_points ε a c b p o hε n1 hac (apart_symm hbc) h3 h2.symm
  · rw [h1]
    exact inCircumcircle_points ε b a c p o hε n2 (apart_symm hab) hac h1.symm h3
  · rw [h1]
    exact inCircumcircle_points ε b c a p o hε n3 hbc (apart_symm hac) h2 h3.symm
  · rw [h3]
    exact inCircumcircle_points ε c a b p o hε n4 (apart_symm hac) hab h3.symm h1
  · rw [h3]
    exact inCircumcircle_points ε c b a p o hε n5 (apart_symm hbc) (apart_symm hab) h2.symm
      h1.symm

/-- C15 at the points `(0,0), (1,0), (0,1)` with `ε = 1e-12` and the point
`(1,1)`, which is on the circumcircle: the six orderings answer true. -/
theorem inCircumcircle_order_independent_witness :
    ∃ r : Bool,
      InCircumcircle sampleEps (NewTriangle2 ⟨0, 0⟩ ⟨1, 0⟩ ⟨0, 1⟩) ⟨1, 1⟩ = some r ∧
      InCircumcircle sampleEps (NewTriangle2 ⟨0, 0⟩ ⟨0, 1⟩ ⟨1, 0⟩) ⟨1, 1⟩ = some r ∧
      InCircumcircle sampleEps (NewTriangle2 ⟨1, 0⟩ ⟨0, 0⟩ ⟨0, 1⟩) ⟨1, 1⟩ = some r ∧
      InCircumcircle sampleEps (NewTriangle2 ⟨1, 0⟩ ⟨0, 1⟩ ⟨0, 0⟩) ⟨1, 1⟩ = some r ∧
      InCircumcircle sampleEps (NewTriangle2 ⟨0, 1⟩ ⟨0, 0⟩ ⟨1, 0⟩) ⟨1, 1⟩ = some r ∧
      InCircumcircle sampleEps (NewTriangle2 ⟨0, 1⟩ ⟨1, 0⟩ ⟨0, 0⟩) ⟨1, 1⟩ = some r :=
  inCircumcircle_order_independent sampleEps ⟨0, 0⟩ ⟨1, 0⟩ ⟨0, 1⟩ ⟨1, 1⟩
    (by norm_num [sampleEps]) (by norm_num [orient])
    (Or.inl rfl) (Or.inr (by norm_num [sampleEps, Abs]))
    (Or.inr (by norm_num [sampleEps, Abs]))

end Sdfx
